import Mathlib

/-!
Verification of the payment-ticket subsystem of the snake-game repository.

The development shallowly embeds the server code:
* `src/lib/token.ts`   — stateless signed payment tokens (`createPaymentToken`,
  `verifyPaymentToken`);
* `src/lib/store.ts`   — the anti-replay store (`isTxHashUsed`, `markTxHashAsUsed`);
* `src/app/api/payments/verify/route.ts` — the `POST /payments/verify` handler;
* `src/components/PaymentGate.tsx` — the client orchestrator's retry-timer /
  teardown mechanics, as an explicit event-step function.

Library collaborators (node `crypto` HMAC, viem's `isAddress`/`getAddress`) are
abstract parameters of the model; `Buffer` base64url and the JSON codec for the
fixed payload shape are implemented concretely below so that round-trip facts
are proved, not assumed.  Machine integers (JS `bigint`) are modelled as
`Nat`/`Int`.
-/

namespace SnakePay

/-! ### JS `String.prototype.split` with a single-character separator -/

/-- Model of JS `s.split(sep)` for a one-character separator: splits the
character list at every occurrence of `sep`; always returns at least one
(possibly empty) segment, like JS. -/
def splitChar (sep : Char) : List Char → List (List Char)
  | [] => [[]]
  | c :: rest =>
    match splitChar sep rest with
    | [] => [[]]
    | g :: gs => if c = sep then [] :: g :: gs else (c :: g) :: gs

/-! ### base64url (no padding), as produced by node `Buffer.toString('base64url')` -/

/-- The base64url alphabet. -/
def b64Chars : List Char :=
  "ABCDEFGHIJKLMNOPQRSTUVWXYZabcdefghijklmnopqrstuvwxyz0123456789-_".toList

/-- Character for a six-bit group. -/
def sixBitToChar (n : Nat) : Char := b64Chars.getD n 'A'

/-- Index of a base64url character in the alphabet (0 for foreign characters,
matching node's lenient decoder closely enough for round-trips). -/
def charToSixBit (c : Char) : Nat := b64Chars.indexOf c

/-- base64url-encode a byte list (no `=` padding, as with node's `base64url`). -/
def b64urlEncodeBytes : List Nat → List Char
  | [] => []
  | [a] => [sixBitToChar (a / 4), sixBitToChar (a % 4 * 16)]
  | [a, b] => [sixBitToChar (a / 4), sixBitToChar (a % 4 * 16 + b / 16),
               sixBitToChar (b % 16 * 4)]
  | a :: b :: c :: rest =>
    sixBitToChar (a / 4) :: sixBitToChar (a % 4 * 16 + b / 16) ::
    sixBitToChar (b % 16 * 4 + c / 64) :: sixBitToChar (c % 64) ::
    b64urlEncodeBytes rest

/-- base64url-decode a character list back to bytes (a dangling 6-bit group is
dropped, as node does). -/
def b64urlDecodeBytes : List Char → List Nat
  | [] => []
  | [_] => []
  | [c0, c1] => [charToSixBit c0 * 4 + charToSixBit c1 / 16]
  | [c0, c1, c2] => [charToSixBit c0 * 4 + charToSixBit c1 / 16,
                     charToSixBit c1 % 16 * 16 + charToSixBit c2 / 4]
  | c0 :: c1 :: c2 :: c3 :: rest =>
    (charToSixBit c0 * 4 + charToSixBit c1 / 16) ::
    (charToSixBit c1 % 16 * 16 + charToSixBit c2 / 4) ::
    (charToSixBit c2 % 4 * 64 + charToSixBit c3) ::
    b64urlDecodeBytes rest

/-- String-level base64url encoding: the model treats the JSON text as its
code-point byte sequence, which coincides with UTF-8 for the ASCII payloads the
well-formedness predicate below demands. -/
def b64urlEncodeStr (s : String) : String :=
  String.mk (b64urlEncodeBytes (s.data.map Char.toNat))

/-- String-level base64url decoding (inverse direction of `b64urlEncodeStr`). -/
def b64urlDecodeStr (s : String) : String :=
  String.mk ((b64urlDecodeBytes s.data).map Char.ofNat)

/-! ### Decimal digit printing and scanning (faithful to `JSON.stringify` for
natural numbers and to `JSON.parse` on that output) -/

/-- Decimal digit character (`d` expected below 10, clamped like `'9'` above). -/
def digitChar (d : Nat) : Char :=
  match d with
  | 0 => '0' | 1 => '1' | 2 => '2' | 3 => '3' | 4 => '4'
  | 5 => '5' | 6 => '6' | 7 => '7' | 8 => '8' | _ => '9'

/-- Decimal digit string of a natural number, most significant digit first, as
`JSON.stringify` prints an integral JS number. -/
def natDigits (n : Nat) : List Char :=
  if n = 0 then ['0'] else (Nat.digits 10 n).reverse.map digitChar

/-- Consume leading decimal digits, accumulating their value. -/
def scanNat : List Char → Nat → Nat × List Char
  | [], acc => (acc, [])
  | c :: cs, acc =>
    if c.isDigit then scanNat cs (acc * 10 + (c.toNat - 48)) else (acc, c :: cs)

/-- Consume characters up to and including the next `"` (the fixed-shape JSON
fields below never contain escapes). -/
def scanString : List Char → Option (List Char × List Char)
  | [] => none
  | c :: cs =>
    if c = '"' then some ([], cs)
    else
      match scanString cs with
      | some (fld, rest) => some (c :: fld, rest)
      | none => none

/-- Consume an expected literal character sequence. -/
def dropLit : List Char → List Char → Option (List Char)
  | [], s => some s
  | _ :: _, [] => none
  | p :: ps, c :: cs => if c = p then dropLit ps cs else none

/-! ### Payment token payload and the `JSON.stringify`/`JSON.parse` pair for its
fixed shape (field order as constructed in the create-intent route) -/

/-- `PaymentTokenPayload` from `src/lib/token.ts`. `chainId` and `expiresAt`
are JS numbers used as non-negative integers (epoch millis); `requiredAmountWei`
is a decimal string. -/
structure PaymentTokenPayload where
  walletAddress : String
  treasuryAddress : String
  requiredAmountWei : String
  chainId : Nat
  expiresAt : Nat
  nonce : String
  deriving DecidableEq, Repr

def jsonLit1 : String := "\x7b\"walletAddress\":\""

def jsonLit2 : String := "\",\"treasuryAddress\":\""

def jsonLit3 : String := "\",\"requiredAmountWei\":\""

def jsonLit4 : String := "\",\"chainId\":"

def jsonLit5 : String := ",\"expiresAt\":"

def jsonLit6 : String := ",\"nonce\":\""

def jsonLit7 : String := "\"\x7d"

def jsonSep2 : String := ",\"treasuryAddress\":\""

def jsonSep3 : String := ",\"requiredAmountWei\":\""

def jsonSep4 : String := ",\"chainId\":"

def jsonClose : String := "\x7d"

/-- Output of `JSON.stringify(payload)` for the payload object as built in the
create-intent route (insertion order: walletAddress, treasuryAddress,
requiredAmountWei, chainId, expiresAt, nonce). -/
def jsonEncodePayload (p : PaymentTokenPayload) : String :=
  jsonLit1 ++ p.walletAddress ++ jsonLit2 ++ p.treasuryAddress ++ jsonLit3 ++
  p.requiredAmountWei ++ jsonLit4 ++ String.mk (natDigits p.chainId) ++ jsonLit5 ++
  String.mk (natDigits p.expiresAt) ++ jsonLit6 ++ p.nonce ++ jsonLit7

/-- Model of `JSON.parse` restricted to the payload shape the token service
ever decodes: it accepts exactly the texts `jsonEncodePayload` produces and
rejects (like the surrounding `try`/`catch`) everything else. -/
def jsonParsePayload (s : String) : Option PaymentTokenPayload :=
  match dropLit jsonLit1.data s.data with
  | none => none
  | some r0 =>
  match scanString r0 with
  | none => none
  | some (wa, r1) =>
  match dropLit jsonSep2.data r1 with
  | none => none
  | some r2 =>
  match scanString r2 with
  | none => none
  | some (ta, r3) =>
  match dropLit jsonSep3.data r3 with
  | none => none
  | some r4 =>
  match scanString r4 with
  | none => none
  | some (ra, r5) =>
  match dropLit jsonSep4.data r5 with
  | none => none
  | some r6 =>
  match r6 with
  | [] => none
  | c :: cs =>
  if c.isDigit then
    match scanNat (c :: cs) 0 with
    | (cid, r7) =>
    match dropLit jsonLit5.data r7 with
    | none => none
    | some r8 =>
    match r8 with
    | [] => none
    | c2 :: cs2 =>
    if c2.isDigit then
      match scanNat (c2 :: cs2) 0 with
      | (ead, r9) =>
      match dropLit jsonLit6.data r9 with
      | none => none
      | some r10 =>
      match scanString r10 with
      | none => none
      | some (no, r11) =>
      match dropLit jsonClose.data r11 with
      | none => none
      | some r12 =>
      if r12 = [] then
        some ⟨String.mk wa, String.mk ta, String.mk ra, cid, ead, String.mk no⟩
      else none
    else none
  else none

/-- Characters `JSON.stringify` emits verbatim inside a string literal: ASCII,
printable, not a quote, not a backslash. -/
def jsonSafeChar (c : Char) : Bool :=
  32 ≤ c.toNat && c.toNat < 128 && c ≠ '"' && c ≠ '\\'

def jsonSafeStr (s : String) : Bool := s.data.all jsonSafeChar

/-- Well-formed payloads: all string fields JSON-safe (true of the
checksummed hex addresses, decimal wei strings and nonces the system builds). -/
def wellFormedPayload (p : PaymentTokenPayload) : Bool :=
  jsonSafeStr p.walletAddress && jsonSafeStr p.treasuryAddress &&
  jsonSafeStr p.requiredAmountWei && jsonSafeStr p.nonce

def jsonTail6 (no : String) : List Char := no.data ++ ('"' :: jsonClose.data)

def jsonTail5 (ead : Nat) (no : String) : List Char :=
  natDigits ead ++ (jsonLit6.data ++ jsonTail6 no)

def jsonTail4 (cid ead : Nat) (no : String) : List Char :=
  natDigits cid ++ (jsonLit5.data ++ jsonTail5 ead no)

def jsonTail3 (ra : String) (cid ead : Nat) (no : String) : List Char :=
  ra.data ++ ('"' :: (jsonSep4.data ++ jsonTail4 cid ead no))

def jsonTail2 (ta ra : String) (cid ead : Nat) (no : String) : List Char :=
  ta.data ++ ('"' :: (jsonSep3.data ++ jsonTail3 ra cid ead no))

def jsonTail1 (wa ta ra : String) (cid ead : Nat) (no : String) : List Char :=
  wa.data ++ ('"' :: (jsonSep2.data ++ jsonTail2 ta ra cid ead no))

/-! ### The token service (`src/lib/token.ts`), with node's HMAC-SHA256
primitive abstract -/

/-- `createPaymentToken`: serialize the payload, base64url-encode, sign the
encoded segment with HMAC under the process secret, join with a single dot. -/
def createPaymentToken (hmac : String → String → String) (secret : String)
    (p : PaymentTokenPayload) : String :=
  let payloadJson := jsonEncodePayload p
  let payloadBase64 := b64urlEncodeStr payloadJson
  let signature := hmac secret payloadBase64
  payloadBase64 ++ "." ++ signature

/-- Result of `verifyPaymentToken`: either a payload (success, no code) or a
null payload with an error code. -/
structure TokenResult where
  payload : Option PaymentTokenPayload
  code : Option String
  deriving DecidableEq, Repr

/-- `verifyPaymentToken`: split on the dot; exactly two segments or
`INVALID_FORMAT`; recompute and compare the HMAC; decode and parse the payload
(a parse failure is caught as `VERIFICATION_ERROR`); finally check expiry. -/
def verifyPaymentToken (hmac : String → String → String) (secret : String)
    (now : Nat) (token : String) : TokenResult :=
  match splitChar '.' token.data with
  | [payloadBase64, providedSignature] =>
    if providedSignature ≠ (hmac secret (String.mk payloadBase64)).data then
      ⟨none, some "INVALID_SIGNATURE"⟩
    else
      match jsonParsePayload (b64urlDecodeStr (String.mk payloadBase64)) with
      | none => ⟨none, some "VERIFICATION_ERROR"⟩
      | some payload =>
        if now > payload.expiresAt then ⟨none, some "EXPIRED"⟩
        else ⟨some payload, none⟩
  | _ => ⟨none, some "INVALID_FORMAT"⟩

/-! ### Anti-replay store (`src/lib/store.ts`) -/

/-- The in-memory `Set` of used transaction hashes, modelled as the list of
inserted (lower-cased) hashes; membership is what matters. -/
abbrev ReplayStore := List String

/-- Model of JS `s.toLowerCase()` (character-wise lowering, which agrees with
it on the ASCII hex strings involved), kept structurally recursive so that
concrete instances evaluate. -/
def jsToLower (s : String) : String := String.mk (s.data.map Char.toLower)

/-- Model of JS `s.startsWith(p)`, structurally recursive. -/
def jsStartsWith (s p : String) : Bool := p.data.isPrefixOf s.data

/-- `isTxHashUsed`: normalize to lower case, then look up. -/
def isTxHashUsed (store : ReplayStore) (txHash : String) : Bool :=
  store.contains (jsToLower txHash)

/-- `markTxHashAsUsed`: normalize to lower case, then insert. -/
def markTxHashAsUsed (store : ReplayStore) (txHash : String) : ReplayStore :=
  jsToLower txHash :: store

/-! ### Constants (`src/lib/constants.ts`) -/

def BASE_CHAIN_ID : Nat := 8453

def MIN_CONFIRMATIONS : Int := 1

/-! ### The `POST /api/payments/verify` route handler -/

/-- Relevant fields of a transaction returned by the chain RPC (`to` may be
absent for contract creation). -/
structure ChainTransaction where
  toAddr : Option String
  fromAddr : String
  value : Nat
  deriving DecidableEq, Repr

/-- Relevant fields of a transaction receipt returned by the chain RPC. -/
structure ChainReceipt where
  status : String
  blockNumber : Int
  deriving DecidableEq, Repr

/-- Environment of one request: process configuration, the abstract library
collaborators (viem address validation/checksumming, node HMAC), the clock, and
the chain RPC answers for this request (`none` models a rejected RPC call). -/
structure VerifyEnv where
  configValid : Bool
  isAddr : String → Bool
  getAddr : String → String
  hmac : String → String → String
  secret : String
  now : Nat
  fetchTx : String → Option (ChainReceipt × ChainTransaction)
  blockNumber : Option Int

/-- Request body fields; `none` models an absent or non-string field. -/
structure VerifyRequest where
  txHash : Option String
  token : Option String
  walletAddress : Option String
  deriving DecidableEq, Repr

/-- Response JSON of the verify route (fields that are absent in a given
branch are `none`; `status` is the HTTP status). -/
structure VerifyResponse where
  paid : Bool
  code : Option String
  retryable : Option Bool
  confirmations : Option Int
  required : Option Int
  status : Nat
  deriving DecidableEq, Repr

/-- Model of `BigInt(s)` restricted to the decimal strings the system writes
into `requiredAmountWei`; a non-decimal string throws, which the route's outer
`catch` turns into `INTERNAL_ERROR`, modelled here by `none`. -/
def decToNat (s : String) : Option Nat :=
  if s.data.all Char.isDigit then
    some (s.data.foldl (fun a c => a * 10 + (c.toNat - 48)) 0)
  else none

/-- Confirmations check and success (route lines: `getBlockNumber`,
`confirmations = currentBlock - receipt.blockNumber + 1n`, the
`PENDING_CONFIRMATIONS` branch, then `markTxHashAsUsed` and the success
response). `env.blockNumber = none` models a rejected `getBlockNumber` call,
which escapes the inner `try` and is caught by the route's outer handler as
`INTERNAL_ERROR`. -/
def confirmationsCheck (env : VerifyEnv) (store : ReplayStore) (txHash : String)
    (receipt : ChainReceipt) : VerifyResponse × ReplayStore :=
  match env.blockNumber with
  | none => (⟨false, some "INTERNAL_ERROR", some true, none, none, 500⟩, store)
  | some currentBlock =>
    if currentBlock - receipt.blockNumber + 1 < MIN_CONFIRMATIONS then
      (⟨false, some "PENDING_CONFIRMATIONS", some true,
        some (currentBlock - receipt.blockNumber + 1), some MIN_CONFIRMATIONS, 400⟩, store)
    else
      (⟨true, none, none, some (currentBlock - receipt.blockNumber + 1), none, 200⟩,
        markTxHashAsUsed store txHash)

/-- Amount check (route: `BigInt(tokenPayload.requiredAmountWei)`, then
`transaction.value < requiredAmountWei`). A `BigInt` conversion throw is
caught by the outer handler as `INTERNAL_ERROR`. -/
def amountCheck (env : VerifyEnv) (store : ReplayStore) (txHash : String)
    (tokenPayload : PaymentTokenPayload) (receipt : ChainReceipt)
    (transaction : ChainTransaction) : VerifyResponse × ReplayStore :=
  match decToNat tokenPayload.requiredAmountWei with
  | none => (⟨false, some "INTERNAL_ERROR", some true, none, none, 500⟩, store)
  | some requiredAmountWei =>
    if transaction.value < requiredAmountWei then
      (⟨false, some "INSUFFICIENT_AMOUNT", some false, none, none, 400⟩, store)
    else
      confirmationsCheck env store txHash receipt

/-- Receipt/transaction checks (route: status, recipient, sender), then the
amount check. -/
def receiptChecks (env : VerifyEnv) (store : ReplayStore) (txHash : String)
    (tokenPayload : PaymentTokenPayload) (receipt : ChainReceipt)
    (transaction : ChainTransaction) : VerifyResponse × ReplayStore :=
  if receipt.status ≠ "success" then
    (⟨false, some "TX_FAILED", some false, none, none, 400⟩, store)
  else
    match transaction.toAddr with
    | none => (⟨false, some "WRONG_RECIPIENT", some false, none, none, 400⟩, store)
    | some toAddr =>
      if toAddr = "" ∨ env.getAddr toAddr ≠ tokenPayload.treasuryAddress then
        (⟨false, some "WRONG_RECIPIENT", some false, none, none, 400⟩, store)
      else if env.getAddr transaction.fromAddr ≠ tokenPayload.walletAddress then
        (⟨false, some "WRONG_SENDER", some false, none, none, 400⟩, store)
      else
        amountCheck env store txHash tokenPayload receipt transaction

/-- Token-payload checks (route: wallet-address match, chain id), then the
RPC fetch of receipt and transaction (`none` models a rejected fetch, answered
as retryable `TX_NOT_FOUND`). -/
def payloadChecks (env : VerifyEnv) (store : ReplayStore) (txHash : String)
    (walletAddress : String) (tokenPayload : PaymentTokenPayload) :
    VerifyResponse × ReplayStore :=
  if env.getAddr walletAddress ≠ tokenPayload.walletAddress then
    (⟨false, some "ADDRESS_MISMATCH", some false, none, none, 400⟩, store)
  else if tokenPayload.chainId ≠ BASE_CHAIN_ID then
    (⟨false, some "WRONG_CHAIN", some false, none, none, 400⟩, store)
  else
    match env.fetchTx txHash with
    | none => (⟨false, some "TX_NOT_FOUND", some true, none, none, 400⟩, store)
    | some (receipt, transaction) =>
      receiptChecks env store txHash tokenPayload receipt transaction

/-- Anti-replay branch, then token verification (route: `isTxHashUsed` answered
as `ALREADY_VERIFIED`; a failed `verifyPaymentToken` mapped to `TOKEN_EXPIRED`
or `INVALID_TOKEN`). -/
def replayAndToken (env : VerifyEnv) (store : ReplayStore) (txHash : String)
    (token : String) (walletAddress : String) : VerifyResponse × ReplayStore :=
  if isTxHashUsed store txHash then
    (⟨true, some "ALREADY_VERIFIED", none, none, none, 200⟩, store)
  else
    match (verifyPaymentToken env.hmac env.secret env.now token).payload with
    | none =>
      (⟨false,
        some (if (verifyPaymentToken env.hmac env.secret env.now token).code
            = some "EXPIRED" then "TOKEN_EXPIRED" else "INVALID_TOKEN"),
        some false, none, none, 400⟩, store)
    | some tokenPayload =>
      payloadChecks env store txHash walletAddress tokenPayload

/-- The `POST` handler of `src/app/api/payments/verify/route.ts`, as a pure
function of the request, its environment and the replay store; returns the
response and the updated store. Input-shape validation runs first, in source
order, then `replayAndToken` and the later stages. -/
def POST (env : VerifyEnv) (store : ReplayStore) (req : VerifyRequest) :
    VerifyResponse × ReplayStore :=
  if env.configValid = false then
    (⟨false, some "CONFIG_ERROR", some false, none, none, 503⟩, store)
  else
    match req.txHash with
    | none => (⟨false, some "INVALID_TX_HASH", some false, none, none, 400⟩, store)
    | some txHash =>
      if ¬ jsStartsWith txHash "0x" then
        (⟨false, some "INVALID_TX_HASH", some false, none, none, 400⟩, store)
      else
        match req.token with
        | none => (⟨false, some "MISSING_TOKEN", some false, none, none, 400⟩, store)
        | some token =>
          if token = "" then
            (⟨false, some "MISSING_TOKEN", some false, none, none, 400⟩, store)
          else
            match req.walletAddress with
            | none => (⟨false, some "INVALID_ADDRESS", some false, none, none, 400⟩, store)
            | some walletAddress =>
              if walletAddress = "" ∨ ¬ env.isAddr walletAddress then
                (⟨false, some "INVALID_ADDRESS", some false, none, none, 400⟩, store)
              else
                replayAndToken env store txHash token walletAddress

/-- An error outcome of a verify stage: not paid, store untouched. -/
abbrev errorOutcome (r : VerifyResponse × ReplayStore) (store : ReplayStore) : Prop :=
  r.1.paid = false ∧ r.2 = store

/-- A fresh success outcome: the hash is newly marked and the response is
`paid` with a confirmations count and no code. -/
abbrev freshSuccess (r : VerifyResponse × ReplayStore) (store : ReplayStore)
    (txHash : String) : Prop :=
  r.2 = markTxHashAsUsed store txHash ∧ r.1.paid = true ∧ r.1.code = none ∧
    ∃ conf : Int, r.1.confirmations = some conf

/-- Replay-store evolution across a sequence of verify calls. -/
def processSeq (calls : List (VerifyEnv × VerifyRequest)) (store : ReplayStore) :
    ReplayStore :=
  calls.foldl (fun s c => (POST c.1 s c.2).2) store

/-! ### Client orchestrator (`src/components/PaymentGate.tsx`): retry-timer and
teardown mechanics -/

def MAX_VERIFY_RETRIES : Nat := 10

/-- Client state relevant to the teardown behaviour: whether the component is
mounted, whether `retryTimeoutRef` holds an armed timer, whether a verify
fetch is awaiting its response, the `paymentState` string, the retry counter,
and how many times the `onPaymentConfirmed` callback has fired (an observable
effect on the embedding application). -/
structure GateState where
  mounted : Bool
  timerPending : Bool
  inFlight : Bool
  paymentState : String
  verifyRetries : Nat
  confirmedCalls : Nat
  deriving DecidableEq, Repr

/-- Events driving the orchestrator model: unmount (the mount effect cleanup,
which runs `clearTimeout` on the pending retry timer), the retry timer firing
(re-entering `verifyPayment`, so a fetch goes in flight), and a verify
response arriving for an in-flight fetch with the given
`paid`/`retryable`/`code` fields. -/
inductive GateEvent where
  | teardown
  | timerFire
  | response (paid : Bool) (retryable : Bool) (code : String)
  deriving DecidableEq, Repr

/-- The verify-response continuation of `verifyPayment` (the code after
`await fetch`/`await response.json()`), translated branch by branch: a `paid`
answer confirms and fires the callback; a retryable failure below the retry
ceiling arms a new retry timer; token errors and other non-retryable failures
land in `failed`; `TX_ALREADY_USED`/`ALREADY_VERIFIED` confirm and fire the
callback. The source has no mounted-guard, so this continuation runs whether
or not the component is still mounted. -/
def applyVerifyResponse (s : GateState) (paid retryable : Bool) (code : String) :
    GateState :=
  if paid then
    { s with inFlight := false, paymentState := "confirmed",
             confirmedCalls := s.confirmedCalls + 1 }
  else if retryable ∧ s.verifyRetries < MAX_VERIFY_RETRIES then
    { s with inFlight := false, verifyRetries := s.verifyRetries + 1,
             timerPending := true }
  else if code = "INVALID_TOKEN" ∨ code = "TOKEN_EXPIRED" ∨ code = "MISSING_TOKEN" then
    { s with inFlight := false, paymentState := "failed" }
  else if code = "TX_ALREADY_USED" ∨ code = "ALREADY_VERIFIED" then
    { s with inFlight := false, paymentState := "confirmed",
             confirmedCalls := s.confirmedCalls + 1 }
  else
    { s with inFlight := false, paymentState := "failed" }

/-- One orchestrator step. `teardown` is the mount effect cleanup: it runs
`clearTimeout(retryTimeoutRef.current)`, cancelling a pending timer, but does
not abort an in-flight fetch. `timerFire` is enabled only while a timer is
pending and re-runs `verifyPayment`, putting a fetch in flight. A `response`
for an in-flight fetch runs `applyVerifyResponse` unconditionally — the code
never consults `mounted` before applying it. -/
def gateStep (s : GateState) : GateEvent → GateState
  | .teardown => { s with mounted := false, timerPending := false }
  | .timerFire =>
    if s.timerPending then { s with timerPending := false, inFlight := true } else s
  | .response paid retryable code =>
    if s.inFlight then applyVerifyResponse s paid retryable code else s

/-! ### Exact-arithmetic idealization of the price conversion
(`gbpToWei` in `src/lib/price.ts`): documentation of the intended formula.
The route computes with JS binary floats, which this development does not
model; the definition below is the exact-rational counterpart. -/

def SAFETY_BUFFER_PERCENT : ℚ := 5

def gbpToWeiExact (gbpAmount ethPriceGbp : ℚ) : Int :=
  Int.ceil (gbpAmount * (1 + SAFETY_BUFFER_PERCENT / 100) / ethPriceGbp * 10 ^ (18 : ℕ))

/-! ### Sample data used by the witness theorems -/

def sampleEnv : VerifyEnv :=
  { configValid := true
    isAddr := fun _ => true
    getAddr := fun a => a
    hmac := fun _ _ => "SIG"
    secret := "s"
    now := 0
    fetchTx := fun _ => none
    blockNumber := none }

def sampleEnvB : VerifyEnv := { sampleEnv with blockNumber := some 100 }

def sampleEnvBad : VerifyEnv := { sampleEnv with configValid := false }

def sampleReceipt : ChainReceipt := ⟨"success", 100⟩

def samplePayload : PaymentTokenPayload := ⟨"0xW", "0xT", "5", 8453, 1000, "n1"⟩

def sampleHmac : String → String → String := fun _ _ => "SIG"

/-! ### Theorems -/

theorem splitChar_ne_nil (sep : Char) (l : List Char) : splitChar sep l ≠ [] := by
  cases l with
  | nil => simp [splitChar]
  | cons c rest =>
    simp only [splitChar]
    cases splitChar sep rest with
    | nil => simp
    | cons g gs =>
      by_cases h : c = sep <;> simp [h]

/-- The number of segments produced by `splitChar` is the number of separator
occurrences plus one. -/
theorem splitChar_length (sep : Char) (l : List Char) :
    (splitChar sep l).length = l.count sep + 1 := by
  induction l with
  | nil => simp [splitChar]
  | cons c rest ih =>
    simp only [splitChar]
    cases hrec : splitChar sep rest with
    | nil => exact absurd hrec (splitChar_ne_nil sep rest)
    | cons g gs =>
      rw [hrec] at ih
      by_cases h : c = sep
      · subst h
        simp_all [List.count_cons]
      · simp_all [List.count_cons, h]

/-- Splitting `a ++ sep :: b` where neither side contains the separator yields
exactly the two sides. -/
theorem splitChar_append (sep : Char) (a b : List Char)
    (ha : sep ∉ a) (hb : sep ∉ b) :
    splitChar sep (a ++ sep :: b) = [a, b] := by
  induction a with
  | nil =>
    simp only [List.nil_append, splitChar]
    have hsplit : splitChar sep b = [b] := by
      induction b with
      | nil => simp [splitChar]
      | cons c rest ih =>
        have hc : c ≠ sep := fun h => hb (h ▸ List.mem_cons_self c rest)
        have hrest : sep ∉ rest := fun h => hb (List.mem_cons_of_mem c h)
        simp [splitChar, ih hrest, hc]
    simp [hsplit]
  | cons c rest ih =>
    have hc : c ≠ sep := fun h => ha (h ▸ List.mem_cons_self c rest)
    have hrest : sep ∉ rest := fun h => ha (List.mem_cons_of_mem c h)
    simp only [List.cons_append, splitChar, List.append_eq]
    rw [ih hrest]
    simp [hc]

theorem charToSixBit_sixBitToChar : ∀ n, n < 64 → charToSixBit (sixBitToChar n) = n := by
  decide

theorem sixBitToChar_mem_b64Chars (n : Nat) (h : n < 64) : sixBitToChar n ∈ b64Chars := by
  interval_cases n <;> decide

theorem dot_not_mem_b64Chars : ('.' : Char) ∉ b64Chars := by decide

theorem b64urlDecode_encode (l : List Nat) (hl : ∀ b ∈ l, b < 256) :
    b64urlDecodeBytes (b64urlEncodeBytes l) = l := by
  induction l using b64urlEncodeBytes.induct with
  | case1 => rfl
  | case2 a =>
    have ha : a < 256 := hl a (by simp)
    have h1 : a / 4 < 64 := by omega
    have h2 : a % 4 * 16 < 64 := by omega
    simp only [b64urlEncodeBytes, b64urlDecodeBytes,
      charToSixBit_sixBitToChar _ h1, charToSixBit_sixBitToChar _ h2]
    congr 1
    omega
  | case3 a b =>
    have ha : a < 256 := hl a (by simp)
    have hb : b < 256 := hl b (by simp)
    have h1 : a / 4 < 64 := by omega
    have h2 : a % 4 * 16 + b / 16 < 64 := by omega
    have h3 : b % 16 * 4 < 64 := by omega
    simp only [b64urlEncodeBytes, b64urlDecodeBytes,
      charToSixBit_sixBitToChar _ h1, charToSixBit_sixBitToChar _ h2,
      charToSixBit_sixBitToChar _ h3]
    simp only [List.cons.injEq, and_true]
    constructor <;> omega
  | case4 a b c rest ih =>
    have ha : a < 256 := hl a (by simp)
    have hb : b < 256 := hl b (by simp)
    have hc : c < 256 := hl c (by simp)
    have h1 : a / 4 < 64 := by omega
    have h2 : a % 4 * 16 + b / 16 < 64 := by omega
    have h3 : b % 16 * 4 + c / 64 < 64 := by omega
    have h4 : c % 64 < 64 := by omega
    have hrest : ∀ x ∈ rest, x < 256 := fun x hx => hl x (by simp [hx])
    simp only [b64urlEncodeBytes]
    have hlen : ∀ (l' : List Nat),
        b64urlDecodeBytes (sixBitToChar (a / 4) :: sixBitToChar (a % 4 * 16 + b / 16) ::
          sixBitToChar (b % 16 * 4 + c / 64) :: sixBitToChar (c % 64) ::
          b64urlEncodeBytes l') =
        (charToSixBit (sixBitToChar (a / 4)) * 4 +
          charToSixBit (sixBitToChar (a % 4 * 16 + b / 16)) / 16) ::
        (charToSixBit (sixBitToChar (a % 4 * 16 + b / 16)) % 16 * 16 +
          charToSixBit (sixBitToChar (b % 16 * 4 + c / 64)) / 4) ::
        (charToSixBit (sixBitToChar (b % 16 * 4 + c / 64)) % 4 * 64 +
          charToSixBit (sixBitToChar (c % 64))) ::
        b64urlDecodeBytes (b64urlEncodeBytes l') := fun l' => rfl
    rw [hlen rest, ih hrest,
      charToSixBit_sixBitToChar _ h1, charToSixBit_sixBitToChar _ h2,
      charToSixBit_sixBitToChar _ h3, charToSixBit_sixBitToChar _ h4]
    congr 1
    · omega
    · congr 1
      · omega
      · congr 1
        omega

theorem b64urlEncodeBytes_mem (l : List Nat) (hl : ∀ b ∈ l, b < 256) :
    ∀ ch ∈ b64urlEncodeBytes l, ch ∈ b64Chars := by
  induction l using b64urlEncodeBytes.induct with
  | case1 => simp [b64urlEncodeBytes]
  | case2 a =>
    have ha : a < 256 := hl a (by simp)
    intro ch hch
    simp only [b64urlEncodeBytes, List.mem_cons, List.mem_singleton] at hch
    rcases hch with h | h | h
    · exact h ▸ sixBitToChar_mem_b64Chars _ (by omega)
    · exact h ▸ sixBitToChar_mem_b64Chars _ (by omega)
    · cases h
  | case3 a b =>
    have ha : a < 256 := hl a (by simp)
    have hb : b < 256 := hl b (by simp)
    intro ch hch
    simp only [b64urlEncodeBytes, List.mem_cons, List.mem_singleton] at hch
    rcases hch with h | h | h | h
    · exact h ▸ sixBitToChar_mem_b64Chars _ (by omega)
    · exact h ▸ sixBitToChar_mem_b64Chars _ (by omega)
    · exact h ▸ sixBitToChar_mem_b64Chars _ (by omega)
    · cases h
  | case4 a b c rest ih =>
    have ha : a < 256 := hl a (by simp)
    have hb : b < 256 := hl b (by simp)
    have hc : c < 256 := hl c (by simp)
    have hrest : ∀ x ∈ rest, x < 256 := fun x hx => hl x (by simp [hx])
    intro ch hch
    simp only [b64urlEncodeBytes, List.mem_cons] at hch
    rcases hch with h | h | h | h | h
    · exact h ▸ sixBitToChar_mem_b64Chars _ (by omega)
    · exact h ▸ sixBitToChar_mem_b64Chars _ (by omega)
    · exact h ▸ sixBitToChar_mem_b64Chars _ (by omega)
    · exact h ▸ sixBitToChar_mem_b64Chars _ (by omega)
    · exact ih hrest ch h

theorem string_mk_data (s : String) : String.mk s.data = s := by
  cases s
  rfl

theorem b64urlDecodeStr_encodeStr (s : String) (hs : ∀ c ∈ s.data, c.toNat < 256) :
    b64urlDecodeStr (b64urlEncodeStr s) = s := by
  unfold b64urlEncodeStr b64urlDecodeStr
  have hdata : (String.mk (b64urlEncodeBytes (s.data.map Char.toNat))).data
      = b64urlEncodeBytes (s.data.map Char.toNat) := rfl
  rw [hdata, b64urlDecode_encode _ (by
    intro b hb
    obtain ⟨c, hc, rfl⟩ := List.mem_map.1 hb
    exact hs c hc)]
  rw [List.map_map]
  have hmapid : s.data.map (Char.ofNat ∘ Char.toNat) = s.data := by
    have : (Char.ofNat ∘ Char.toNat) = id := funext fun c => Char.ofNat_toNat c
    rw [this, List.map_id]
  rw [hmapid, string_mk_data]

theorem dot_not_mem_b64urlEncodeStr (s : String) (hs : ∀ c ∈ s.data, c.toNat < 256) :
    ('.' : Char) ∉ (b64urlEncodeStr s).data := by
  intro hmem
  have : ('.' : Char) ∈ b64Chars :=
    b64urlEncodeBytes_mem (s.data.map Char.toNat)
      (by
        intro b hb
        obtain ⟨c, hc, rfl⟩ := List.mem_map.1 hb
        exact hs c hc) '.' hmem
  exact dot_not_mem_b64Chars this

theorem dropLit_append (l r : List Char) : dropLit l (l ++ r) = some r := by
  induction l with
  | nil => rfl
  | cons p ps ih => simp [dropLit, ih]

theorem scanString_append (fld rest : List Char) (h : ('"' : Char) ∉ fld) :
    scanString (fld ++ '"' :: rest) = some (fld, rest) := by
  induction fld with
  | nil => simp [scanString]
  | cons c cs ih =>
    have hc : c ≠ '"' := fun hq => h (hq ▸ List.mem_cons_self c cs)
    have hcs : ('"' : Char) ∉ cs := fun hq => h (List.mem_cons_of_mem c hq)
    simp [scanString, hc, ih hcs]

theorem scanNat_nondigit (l : List Char) (acc : Nat)
    (h : ∀ c, l.head? = some c → c.isDigit = false) :
    scanNat l acc = (acc, l) := by
  cases l with
  | nil => rfl
  | cons c cs => simp [scanNat, h c rfl]

theorem digitChar_isDigit : ∀ d, d < 10 → (digitChar d).isDigit = true := by decide

theorem digitChar_toNat : ∀ d, d < 10 → (digitChar d).toNat - 48 = d := by decide

theorem digitChar_lt_128 : ∀ d, (digitChar d).toNat < 128 := by
  intro d
  unfold digitChar
  split <;> decide

theorem scanNat_digits (ds : List Nat) (rest : List Char) (acc : Nat)
    (hds : ∀ d ∈ ds, d < 10)
    (hrest : ∀ c, rest.head? = some c → c.isDigit = false) :
    scanNat (ds.map digitChar ++ rest) acc =
      (ds.foldl (fun a d => a * 10 + d) acc, rest) := by
  induction ds generalizing acc with
  | nil => simpa using scanNat_nondigit rest acc hrest
  | cons d ds ih =>
    have hd : d < 10 := hds d (by simp)
    have hds' : ∀ x ∈ ds, x < 10 := fun x hx => hds x (by simp [hx])
    simp only [List.map_cons, List.cons_append, scanNat, digitChar_isDigit d hd,
      if_true, digitChar_toNat d hd, List.foldl_cons]
    exact ih (acc * 10 + d) hds'

theorem foldl_base10 (l : List Nat) (acc : Nat) :
    l.foldl (fun a d => a * 10 + d) acc =
      acc * 10 ^ l.length + Nat.ofDigits 10 l.reverse := by
  induction l generalizing acc with
  | nil => simp [Nat.ofDigits]
  | cons d l ih =>
    simp only [List.foldl_cons, List.reverse_cons, List.length_cons]
    rw [ih (acc * 10 + d), Nat.ofDigits_append]
    simp [Nat.ofDigits]
    ring

theorem scanNat_natDigits (n : Nat) (rest : List Char)
    (hrest : ∀ c, rest.head? = some c → c.isDigit = false) :
    scanNat (natDigits n ++ rest) 0 = (n, rest) := by
  by_cases h0 : n = 0
  · subst h0
    simp only [natDigits, if_true]
    have : scanNat (['0'] ++ rest) 0 = scanNat rest 0 := by
      simp [scanNat]
    rw [this, scanNat_nondigit rest 0 hrest]
  · simp only [natDigits, h0, if_false]
    rw [scanNat_digits _ rest 0
      (fun d hd => Nat.digits_lt_base (by norm_num) (List.mem_reverse.1 hd)) hrest]
    rw [foldl_base10, List.reverse_reverse, Nat.ofDigits_digits]
    simp

theorem natDigits_lt_128 (n : Nat) : ∀ c ∈ natDigits n, c.toNat < 128 := by
  intro c hc
  unfold natDigits at hc
  by_cases h0 : n = 0
  · simp [h0] at hc
    subst hc
    decide
  · simp only [h0, if_false, List.mem_map] at hc
    obtain ⟨d, _, rfl⟩ := hc
    exact digitChar_lt_128 d

theorem natDigits_head_digit (n : Nat) :
    ∀ c, (natDigits n).head? = some c → c.isDigit = true := by
  intro c hc
  unfold natDigits at hc
  by_cases h0 : n = 0
  · simp [h0] at hc
    subst hc
    decide
  · simp only [h0, if_false] at hc
    rcases hhd : (Nat.digits 10 n).reverse with _ | ⟨d, ds⟩
    · rw [hhd] at hc
      simp at hc
    · rw [hhd] at hc
      simp only [List.map_cons, List.head?_cons, Option.some.injEq] at hc
      subst hc
      exact digitChar_isDigit d
        (Nat.digits_lt_base (by norm_num) (List.mem_reverse.1 (hhd ▸ List.mem_cons_self d ds)))

theorem natDigits_cons (n : Nat) :
    ∃ d tl, natDigits n = d :: tl ∧ d.isDigit = true := by
  rcases hd : natDigits n with _ | ⟨d, tl⟩
  · exfalso
    unfold natDigits at hd
    by_cases h0 : n = 0
    · simp [h0] at hd
    · simp only [h0, if_false] at hd
      have : Nat.digits 10 n ≠ [] := Nat.digits_ne_nil_iff_ne_zero.2 h0
      simp only [List.map_eq_nil_iff, List.reverse_eq_nil_iff] at hd
      exact this hd
  · exact ⟨d, tl, rfl, natDigits_head_digit n d (by rw [hd]; rfl)⟩

theorem jsonSafe_no_quote {s : String} (h : jsonSafeStr s = true) :
    ('"' : Char) ∉ s.data := by
  intro hmem
  have := List.all_eq_true.1 h _ hmem
  simp [jsonSafeChar] at this

theorem jsonSafe_lt_256 {s : String} (h : jsonSafeStr s = true) :
    ∀ c ∈ s.data, c.toNat < 256 := by
  intro c hmem
  have := List.all_eq_true.1 h _ hmem
  simp only [jsonSafeChar, Bool.and_eq_true, decide_eq_true_eq] at this
  omega

theorem jsonEncode_data (wa ta ra : String) (cid ead : Nat) (no : String) :
    (jsonEncodePayload ⟨wa, ta, ra, cid, ead, no⟩).data =
      jsonLit1.data ++ jsonTail1 wa ta ra cid ead no := by
  have e2 : jsonLit2.data = '"' :: jsonSep2.data := rfl
  have e3 : jsonLit3.data = '"' :: jsonSep3.data := rfl
  have e4 : jsonLit4.data = '"' :: jsonSep4.data := rfl
  have e7 : jsonLit7.data = '"' :: jsonClose.data := rfl
  have emk : ∀ l : List Char, (String.mk l).data = l := fun _ => rfl
  simp only [jsonEncodePayload, jsonTail1, jsonTail2, jsonTail3, jsonTail4,
    jsonTail5, jsonTail6, String.data_append, e2, e3, e4, e7, emk,
    List.append_assoc, List.cons_append]

theorem jsonParse_encode (p : PaymentTokenPayload) (h : wellFormedPayload p = true) :
    jsonParsePayload (jsonEncodePayload p) = some p := by
  obtain ⟨wa, ta, ra, cid, ead, no⟩ := p
  simp only [wellFormedPayload, Bool.and_eq_true] at h
  obtain ⟨⟨⟨hswa, hsta⟩, hsra⟩, hsno⟩ := h
  have hwa := jsonSafe_no_quote hswa
  have hta := jsonSafe_no_quote hsta
  have hra := jsonSafe_no_quote hsra
  have hno := jsonSafe_no_quote hsno
  obtain ⟨d1, t1, hnd1, hd1⟩ := natDigits_cons cid
  obtain ⟨d2, t2, hnd2, hd2⟩ := natDigits_cons ead
  have h0 : dropLit jsonLit1.data (jsonEncodePayload ⟨wa, ta, ra, cid, ead, no⟩).data
      = some (jsonTail1 wa ta ra cid ead no) := by
    rw [jsonEncode_data]
    exact dropLit_append _ _
  have h1 : scanString (jsonTail1 wa ta ra cid ead no) =
      some (wa.data, jsonSep2.data ++ jsonTail2 ta ra cid ead no) :=
    scanString_append _ _ hwa
  have h2 : dropLit jsonSep2.data (jsonSep2.data ++ jsonTail2 ta ra cid ead no) =
      some (jsonTail2 ta ra cid ead no) := dropLit_append _ _
  have h3 : scanString (jsonTail2 ta ra cid ead no) =
      some (ta.data, jsonSep3.data ++ jsonTail3 ra cid ead no) :=
    scanString_append _ _ hta
  have h4 : dropLit jsonSep3.data (jsonSep3.data ++ jsonTail3 ra cid ead no) =
      some (jsonTail3 ra cid ead no) := dropLit_append _ _
  have h5 : scanString (jsonTail3 ra cid ead no) =
      some (ra.data, jsonSep4.data ++ jsonTail4 cid ead no) :=
    scanString_append _ _ hra
  have h6 : dropLit jsonSep4.data (jsonSep4.data ++ jsonTail4 cid ead no) =
      some (jsonTail4 cid ead no) := dropLit_append _ _
  have h7 : scanNat (jsonTail4 cid ead no) 0 =
      (cid, jsonLit5.data ++ jsonTail5 ead no) := by
    apply scanNat_natDigits
    intro c hc
    have hc' : c = ',' := by
      have e5 : jsonLit5.data = ',' :: "\"expiresAt\":".data := rfl
      rw [List.head?_append_of_ne_nil] at hc
      · rw [e5] at hc
        simp only [List.head?_cons, Option.some.injEq] at hc
        exact hc.symm
      · rw [e5]
        simp
    subst hc'
    decide
  have h8 : dropLit jsonLit5.data (jsonLit5.data ++ jsonTail5 ead no) =
      some (jsonTail5 ead no) := dropLit_append _ _
  have h9 : scanNat (jsonTail5 ead no) 0 =
      (ead, jsonLit6.data ++ jsonTail6 no) := by
    apply scanNat_natDigits
    intro c hc
    have hc' : c = ',' := by
      have e6 : jsonLit6.data = ',' :: "\"nonce\":\"".data := rfl
      rw [List.head?_append_of_ne_nil] at hc
      · rw [e6] at hc
        simp only [List.head?_cons, Option.some.injEq] at hc
        exact hc.symm
      · rw [e6]
        simp
    subst hc'
    decide
  have h10 : dropLit jsonLit6.data (jsonLit6.data ++ jsonTail6 no) =
      some (jsonTail6 no) := dropLit_append _ _
  have h11 : scanString (jsonTail6 no) = some (no.data, jsonClose.data) :=
    scanString_append _ _ hno
  have h12 : dropLit jsonClose.data jsonClose.data = some [] := by
    have := dropLit_append jsonClose.data []
    simpa using this
  have hT4 : jsonTail4 cid ead no = d1 :: (t1 ++ (jsonLit5.data ++ jsonTail5 ead no)) := by
    simp [jsonTail4, hnd1]
  have hT5 : jsonTail5 ead no = d2 :: (t2 ++ (jsonLit6.data ++ jsonTail6 no)) := by
    simp [jsonTail5, hnd2]
  have h7' : scanNat (d1 :: (t1 ++ (jsonLit5.data ++ jsonTail5 ead no))) 0 =
      (cid, jsonLit5.data ++ jsonTail5 ead no) := by
    rw [← hT4]
    exact h7
  have h9' : scanNat (d2 :: (t2 ++ (jsonLit6.data ++ jsonTail6 no))) 0 =
      (ead, jsonLit6.data ++ jsonTail6 no) := by
    rw [← hT5]
    exact h9
  have h6' : dropLit jsonSep4.data (jsonSep4.data ++ jsonTail4 cid ead no) =
      some (d1 :: (t1 ++ (jsonLit5.data ++ jsonTail5 ead no))) := by
    rw [h6, hT4]
  have h8' : dropLit jsonLit5.data (jsonLit5.data ++ jsonTail5 ead no) =
      some (d2 :: (t2 ++ (jsonLit6.data ++ jsonTail6 no))) := by
    rw [h8, hT5]
  simp only [jsonParsePayload, h0, h1, h2, h3, h4, h5, h6', hd1, if_true,
    h7', h8', hd2, h9', h10, h11, h12, if_pos rfl, string_mk_data,
    eq_self_iff_true]

theorem jsonEncode_lt_256 (p : PaymentTokenPayload) (h : wellFormedPayload p = true) :
    ∀ c ∈ (jsonEncodePayload p).data, c.toNat < 256 := by
  obtain ⟨wa, ta, ra, cid, ead, no⟩ := p
  simp only [wellFormedPayload, Bool.and_eq_true] at h
  obtain ⟨⟨⟨hswa, hsta⟩, hsra⟩, hsno⟩ := h
  have l1 : ∀ c ∈ jsonLit1.data, c.toNat < 256 := by decide
  have l2 : ∀ c ∈ jsonSep2.data, c.toNat < 256 := by decide
  have l3 : ∀ c ∈ jsonSep3.data, c.toNat < 256 := by decide
  have l4 : ∀ c ∈ jsonSep4.data, c.toNat < 256 := by decide
  have l5 : ∀ c ∈ jsonLit5.data, c.toNat < 256 := by decide
  have l6 : ∀ c ∈ jsonLit6.data, c.toNat < 256 := by decide
  have l7 : ∀ c ∈ jsonClose.data, c.toNat < 256 := by decide
  intro c hc
  rw [jsonEncode_data] at hc
  simp only [jsonTail1, jsonTail2, jsonTail3, jsonTail4, jsonTail5, jsonTail6,
    List.mem_append, List.mem_cons] at hc
  rcases hc with hc|hc|hc|hc|hc|hc|hc|hc|hc|hc|hc|hc|hc|hc|hc|hc|hc
  all_goals first
    | exact l1 _ hc
    | exact l2 _ hc
    | exact l3 _ hc
    | exact l4 _ hc
    | exact l5 _ hc
    | exact l6 _ hc
    | exact l7 _ hc
    | (subst hc; decide)
    | exact jsonSafe_lt_256 hswa _ hc
    | exact jsonSafe_lt_256 hsta _ hc
    | exact jsonSafe_lt_256 hsra _ hc
    | exact jsonSafe_lt_256 hsno _ hc
    | exact lt_trans (natDigits_lt_128 _ _ hc) (by norm_num)

theorem createToken_data (hmac : String → String → String) (secret : String)
    (p : PaymentTokenPayload) :
    (createPaymentToken hmac secret p).data =
      (b64urlEncodeStr (jsonEncodePayload p)).data ++ '.' ::
        (hmac secret (b64urlEncodeStr (jsonEncodePayload p))).data := by
  have edot : (".").data = ['.'] := rfl
  simp only [createPaymentToken, String.data_append, edot, List.append_assoc,
    List.singleton_append]

/-- C3: for every well-formed payload whose expiry lies at or after the moment
of verification, verifying a freshly created token returns exactly that
payload with no error code — signing then verifying round-trips under the same
process secret, for any HMAC primitive whose base64url digest contains no dot. -/
theorem verifyToken_createToken_roundtrip (hmac : String → String → String) (secret : String)
    (p : PaymentTokenPayload) (now : Nat)
    (hwf : wellFormedPayload p = true)
    (hsig : ('.' : Char) ∉ (hmac secret (b64urlEncodeStr (jsonEncodePayload p))).data)
    (hnow : now ≤ p.expiresAt) :
    verifyPaymentToken hmac secret now (createPaymentToken hmac secret p) =
      ⟨some p, none⟩ := by
  have hascii := jsonEncode_lt_256 p hwf
  have hdotenc : ('.' : Char) ∉ (b64urlEncodeStr (jsonEncodePayload p)).data :=
    dot_not_mem_b64urlEncodeStr _ hascii
  have hdec : b64urlDecodeStr (b64urlEncodeStr (jsonEncodePayload p))
      = jsonEncodePayload p := b64urlDecodeStr_encodeStr _ hascii
  have hexp : ¬ (now > p.expiresAt) := by omega
  unfold verifyPaymentToken
  rw [createToken_data, splitChar_append '.' _ _ hdotenc hsig]
  simp only [string_mk_data, ne_eq, not_true_eq_false, if_false, hdec,
    jsonParse_encode p hwf, hexp, eq_self_iff_true]

theorem isTxHashUsed_markTxHashAsUsed (store : ReplayStore) (txHash : String) :
    isTxHashUsed (markTxHashAsUsed store txHash) txHash = true := by
  simp [isTxHashUsed, markTxHashAsUsed]

theorem mark_preserves_used (store : ReplayStore) (txHash g : String)
    (hg : isTxHashUsed store g = true) :
    isTxHashUsed (markTxHashAsUsed store txHash) g = true := by
  simp only [isTxHashUsed, markTxHashAsUsed, List.contains_cons, Bool.or_eq_true]
  exact Or.inr hg

theorem confirmationsCheck_cases (env : VerifyEnv) (store : ReplayStore)
    (txHash : String) (receipt : ChainReceipt) :
    errorOutcome (confirmationsCheck env store txHash receipt) store ∨
      freshSuccess (confirmationsCheck env store txHash receipt) store txHash := by
  unfold confirmationsCheck errorOutcome freshSuccess
  split
  · exact Or.inl ⟨rfl, rfl⟩
  · split
    · exact Or.inl ⟨rfl, rfl⟩
    · exact Or.inr ⟨rfl, rfl, rfl, _, rfl⟩

theorem amountCheck_cases (env : VerifyEnv) (store : ReplayStore) (txHash : String)
    (tokenPayload : PaymentTokenPayload) (receipt : ChainReceipt)
    (transaction : ChainTransaction) :
    errorOutcome (amountCheck env store txHash tokenPayload receipt transaction) store ∨
      freshSuccess (amountCheck env store txHash tokenPayload receipt transaction)
        store txHash := by
  unfold amountCheck
  split
  · exact Or.inl ⟨rfl, rfl⟩
  · split
    · exact Or.inl ⟨rfl, rfl⟩
    · exact confirmationsCheck_cases env store txHash receipt

theorem receiptChecks_cases (env : VerifyEnv) (store : ReplayStore) (txHash : String)
    (tokenPayload : PaymentTokenPayload) (receipt : ChainReceipt)
    (transaction : ChainTransaction) :
    errorOutcome (receiptChecks env store txHash tokenPayload receipt transaction) store ∨
      freshSuccess (receiptChecks env store txHash tokenPayload receipt transaction)
        store txHash := by
  unfold receiptChecks
  split
  · exact Or.inl ⟨rfl, rfl⟩
  · split
    · exact Or.inl ⟨rfl, rfl⟩
    · split
      · exact Or.inl ⟨rfl, rfl⟩
      · split
        · exact Or.inl ⟨rfl, rfl⟩
        · exact amountCheck_cases env store txHash tokenPayload receipt transaction

theorem payloadChecks_cases (env : VerifyEnv) (store : ReplayStore) (txHash : String)
    (walletAddress : String) (tokenPayload : PaymentTokenPayload) :
    errorOutcome (payloadChecks env store txHash walletAddress tokenPayload) store ∨
      freshSuccess (payloadChecks env store txHash walletAddress tokenPayload)
        store txHash := by
  unfold payloadChecks
  split
  · exact Or.inl ⟨rfl, rfl⟩
  · split
    · exact Or.inl ⟨rfl, rfl⟩
    · split
      · exact Or.inl ⟨rfl, rfl⟩
      · exact receiptChecks_cases env store txHash tokenPayload _ _

/-- Outcomes of the anti-replay branch and everything after it: idempotent
already-used success (store untouched), or — only for a currently unused
hash — an error outcome or the fresh success that marks the hash. -/
theorem replayAndToken_cases (env : VerifyEnv) (store : ReplayStore) (txHash : String)
    (token : String) (walletAddress : String) :
    ((replayAndToken env store txHash token walletAddress).1
        = ⟨true, some "ALREADY_VERIFIED", none, none, none, 200⟩ ∧
      isTxHashUsed store txHash = true ∧
      (replayAndToken env store txHash token walletAddress).2 = store) ∨
    (isTxHashUsed store txHash = false ∧
      (errorOutcome (replayAndToken env store txHash token walletAddress) store ∨
        freshSuccess (replayAndToken env store txHash token walletAddress)
          store txHash)) := by
  unfold replayAndToken
  split
  · rename_i hused
    exact Or.inl ⟨rfl, hused, rfl⟩
  · rename_i hused
    refine Or.inr ⟨by simpa using hused, ?_⟩
    split
    · exact Or.inl ⟨rfl, rfl⟩
    · exact payloadChecks_cases env store txHash walletAddress _

/-- The verify route's outcome trichotomy: an error response leaving the store
unchanged; the idempotent `ALREADY_VERIFIED` success for an already-used hash,
leaving the store unchanged; or the fresh success, only for a request whose
hash is currently unused, which marks that hash. -/
theorem POST_cases (env : VerifyEnv) (store : ReplayStore) (req : VerifyRequest) :
    errorOutcome (POST env store req) store ∨
      (∃ th, req.txHash = some th ∧ isTxHashUsed store th = true ∧
        (POST env store req).1
          = ⟨true, some "ALREADY_VERIFIED", none, none, none, 200⟩ ∧
        (POST env store req).2 = store) ∨
      (∃ th, req.txHash = some th ∧ isTxHashUsed store th = false ∧
        freshSuccess (POST env store req) store th) := by
  unfold POST
  split
  · exact Or.inl ⟨rfl, rfl⟩
  · split
    · exact Or.inl ⟨rfl, rfl⟩
    · rename_i txHash heq
      split
      · exact Or.inl ⟨rfl, rfl⟩
      · split
        · exact Or.inl ⟨rfl, rfl⟩
        · split
          · exact Or.inl ⟨rfl, rfl⟩
          · split
            · exact Or.inl ⟨rfl, rfl⟩
            · split
              · exact Or.inl ⟨rfl, rfl⟩
              · rcases replayAndToken_cases env store txHash _ _ with
                  ⟨hresp, hused, hst⟩ | ⟨hunused, herr | hfresh⟩
                · exact Or.inr (Or.inl ⟨txHash, heq, hused, hresp, hst⟩)
                · exact Or.inl herr
                · exact Or.inr (Or.inr ⟨txHash, heq, hunused, hfresh⟩)

/-- A single verify call never removes a hash from the replay store. -/
theorem POST_preserves_used (env : VerifyEnv) (store : ReplayStore) (req : VerifyRequest)
    (g : String) (hg : isTxHashUsed store g = true) :
    isTxHashUsed (POST env store req).2 g = true := by
  rcases POST_cases env store req with ⟨_, hst⟩ | ⟨th, _, _, _, hst⟩ | ⟨th, _, _, hst, _⟩
  · rw [hst]
    exact hg
  · rw [hst]
    exact hg
  · rw [hst]
    exact mark_preserves_used _ _ _ hg

theorem processSeq_preserves_used (calls : List (VerifyEnv × VerifyRequest))
    (store : ReplayStore) (g : String) (hg : isTxHashUsed store g = true) :
    isTxHashUsed (processSeq calls store) g = true := by
  induction calls generalizing store with
  | nil => exact hg
  | cons c cs ih =>
    exact ih (POST c.1 store c.2).2 (POST_preserves_used c.1 store c.2 g hg)

theorem gbpToWeiExact_scenario : gbpToWeiExact (3 / 10000) 2000 = 157500000000 := by
  unfold gbpToWeiExact SAFETY_BUFFER_PERCENT
  norm_num

/-! ### The claims -/

/-- C1: once `markTxHashAsUsed` has recorded a transaction hash, no later
verify call — after any interleaved sequence of other verify calls — can
produce a fresh paid decision for that hash again: every `paid` answer for it
is the idempotent `{paid:true, code:ALREADY_VERIFIED}` branch, which leaves the
replay store unchanged. -/
theorem used_hash_never_fresh_paid (store0 : ReplayStore) (h : String)
    (calls : List (VerifyEnv × VerifyRequest)) (env : VerifyEnv) (req : VerifyRequest)
    (h2 : String) (hreq : req.txHash = some h2) (hsame : jsToLower h2 = jsToLower h) :
    (POST env (processSeq calls (markTxHashAsUsed store0 h)) req).1.paid = true →
      (POST env (processSeq calls (markTxHashAsUsed store0 h)) req).1
          = ⟨true, some "ALREADY_VERIFIED", none, none, none, 200⟩ ∧
        (POST env (processSeq calls (markTxHashAsUsed store0 h)) req).2
          = processSeq calls (markTxHashAsUsed store0 h) := by
  intro hp
  have hused : isTxHashUsed (processSeq calls (markTxHashAsUsed store0 h)) h2 = true := by
    apply processSeq_preserves_used
    simp only [isTxHashUsed, markTxHashAsUsed, List.contains_cons, hsame]
    simp
  rcases POST_cases env (processSeq calls (markTxHashAsUsed store0 h)) req with
    ⟨hpf, _⟩ | ⟨th, hth, _, hresp, hst⟩ | ⟨th, hth, hun, _⟩
  · rw [hpf] at hp
    exact Bool.noConfusion hp
  · exact ⟨hresp, hst⟩
  · rw [hreq] at hth
    injection hth with hth
    subst hth
    rw [hused] at hun
    exact Bool.noConfusion hun

theorem used_hash_never_fresh_paid_witness :
    (POST sampleEnv (processSeq [] (markTxHashAsUsed [] "0xAB"))
        ⟨some "0xAb", some "tok", some "0xw"⟩).1
      = ⟨true, some "ALREADY_VERIFIED", none, none, none, 200⟩ ∧
    (POST sampleEnv (processSeq [] (markTxHashAsUsed [] "0xAB"))
        ⟨some "0xAb", some "tok", some "0xw"⟩).2
      = processSeq [] (markTxHashAsUsed [] "0xAB") :=
  used_hash_never_fresh_paid [] "0xAB" [] sampleEnv
    ⟨some "0xAb", some "tok", some "0xw"⟩ "0xAb" rfl (by decide) (by decide)

/-- C2: a verify request whose well-formed transaction hash is already recorded
as used is answered `{paid:true, code:ALREADY_VERIFIED}` (HTTP 200) with the
store untouched, whatever token string accompanies the request — the anti-replay
branch runs before token validation, so the answer does not depend on the token
at all (the token is universally quantified and absent from the conclusion). -/
theorem already_verified_for_used_hash (env : VerifyEnv) (store : ReplayStore)
    (th token wallet : String)
    (hcfg : env.configValid = true)
    (hth : jsStartsWith th "0x" = true)
    (htok : token ≠ "")
    (hw : wallet ≠ "")
    (hwa : env.isAddr wallet = true)
    (hused : isTxHashUsed store th = true) :
    POST env store ⟨some th, some token, some wallet⟩ =
      (⟨true, some "ALREADY_VERIFIED", none, none, none, 200⟩, store) := by
  unfold POST replayAndToken
  simp [hcfg, hth, htok, hw, hwa, hused]

theorem already_verified_for_used_hash_witness :
    POST sampleEnv ["0xab"] ⟨some "0xab", some "expired-token", some "0xw"⟩ =
      (⟨true, some "ALREADY_VERIFIED", none, none, none, 200⟩, ["0xab"]) :=
  already_verified_for_used_hash sampleEnv ["0xab"] "0xab" "expired-token" "0xw"
    rfl (by decide) (by decide) (by decide) rfl (by decide)

theorem verifyToken_createToken_roundtrip_witness :
    wellFormedPayload samplePayload = true ∧
    ('.' : Char) ∉ (sampleHmac "s" (b64urlEncodeStr (jsonEncodePayload samplePayload))).data ∧
    (0 : Nat) ≤ samplePayload.expiresAt ∧
    verifyPaymentToken sampleHmac "s" 0 (createPaymentToken sampleHmac "s" samplePayload)
      = ⟨some samplePayload, none⟩ :=
  ⟨by decide, by decide, by decide,
    verifyToken_createToken_roundtrip sampleHmac "s" samplePayload 0
      (by decide) (by decide) (by decide)⟩

/-- C4: at the amount check with token-required amount `N` (the decimal value
of the token payload's `requiredAmountWei`): a transaction value below `N`
is refused with non-retryable `INSUFFICIENT_AMOUNT`, while a value equal to or
above `N` always passes on to the confirmations check — over-payment is never
refused. -/
theorem amount_check_threshold (env : VerifyEnv) (store : ReplayStore) (txHash : String)
    (p : PaymentTokenPayload) (receipt : ChainReceipt) (tx : ChainTransaction)
    (N : Nat) (hN : decToNat p.requiredAmountWei = some N) :
    (tx.value < N →
      amountCheck env store txHash p receipt tx =
        (⟨false, some "INSUFFICIENT_AMOUNT", some false, none, none, 400⟩, store)) ∧
    (N ≤ tx.value →
      amountCheck env store txHash p receipt tx =
        confirmationsCheck env store txHash receipt) := by
  unfold amountCheck
  rw [hN]
  constructor
  · intro hv
    simp [hv]
  · intro hv
    simp [Nat.not_lt.2 hv]

theorem amount_check_threshold_witness :
    (amountCheck sampleEnv [] "0xab" samplePayload sampleReceipt ⟨some "0xT", "0xW", 4⟩ =
      (⟨false, some "INSUFFICIENT_AMOUNT", some false, none, none, 400⟩, [])) ∧
    (amountCheck sampleEnv [] "0xab" samplePayload sampleReceipt ⟨some "0xT", "0xW", 5⟩ =
      confirmationsCheck sampleEnv [] "0xab" sampleReceipt) ∧
    (amountCheck sampleEnv [] "0xab" samplePayload sampleReceipt ⟨some "0xT", "0xW", 10⟩ =
      confirmationsCheck sampleEnv [] "0xab" sampleReceipt) :=
  ⟨(amount_check_threshold sampleEnv [] "0xab" samplePayload sampleReceipt
      ⟨some "0xT", "0xW", 4⟩ 5 rfl).1 (by decide),
   (amount_check_threshold sampleEnv [] "0xab" samplePayload sampleReceipt
      ⟨some "0xT", "0xW", 5⟩ 5 rfl).2 (by decide),
   (amount_check_threshold sampleEnv [] "0xab" samplePayload sampleReceipt
      ⟨some "0xT", "0xW", 10⟩ 5 rfl).2 (by decide)⟩

/-- C5: the confirmations check computes
`confirmations = currentBlockNumber - receiptBlockNumber + 1`; a count below
the configured minimum answers retryable `PENDING_CONFIRMATIONS` carrying the
current count and the requirement, and a count at or above the minimum takes
the fresh success path that marks the hash; the configured minimum is 1, so 0
confirmations is pending and 1 proceeds to success. -/
theorem confirmations_check_threshold (env : VerifyEnv) (store : ReplayStore)
    (txHash : String) (receipt : ChainReceipt) (cur : Int)
    (hbn : env.blockNumber = some cur) :
    (cur - receipt.blockNumber + 1 < MIN_CONFIRMATIONS →
      confirmationsCheck env store txHash receipt =
        (⟨false, some "PENDING_CONFIRMATIONS", some true,
          some (cur - receipt.blockNumber + 1), some MIN_CONFIRMATIONS, 400⟩, store)) ∧
    (MIN_CONFIRMATIONS ≤ cur - receipt.blockNumber + 1 →
      confirmationsCheck env store txHash receipt =
        (⟨true, none, none, some (cur - receipt.blockNumber + 1), none, 200⟩,
          markTxHashAsUsed store txHash)) ∧
    MIN_CONFIRMATIONS = 1 := by
  unfold confirmationsCheck
  rw [hbn]
  refine ⟨fun hlt => ?_, fun hge => ?_, rfl⟩
  · simp [hlt]
  · simp [not_lt.2 hge]

theorem confirmations_check_threshold_witness :
    (confirmationsCheck sampleEnvB [] "0xab" ⟨"success", 101⟩ =
      (⟨false, some "PENDING_CONFIRMATIONS", some true, some 0, some 1, 400⟩, [])) ∧
    (confirmationsCheck sampleEnvB [] "0xab" ⟨"success", 100⟩ =
      (⟨true, none, none, some 1, none, 200⟩, markTxHashAsUsed [] "0xab")) :=
  ⟨(confirmations_check_threshold sampleEnvB [] "0xab" ⟨"success", 101⟩ 100 rfl).1
      (by decide),
   (confirmations_check_threshold sampleEnvB [] "0xab" ⟨"success", 100⟩ 100 rfl).2.1
      (by decide)⟩

/-- C7: a token string whose dot-split does not yield exactly two segments
(its number of `.` occurrences differs from one, covering 0, 1 and 3-or-more
segment shapes) is rejected by `verifyPaymentToken` with a null payload and
code `INVALID_FORMAT`. -/
theorem verifyToken_invalid_format (hmac : String → String → String) (secret : String)
    (now : Nat) (token : String) (h : token.data.count '.' ≠ 1) :
    verifyPaymentToken hmac secret now token = ⟨none, some "INVALID_FORMAT"⟩ := by
  have hlen : (splitChar '.' token.data).length ≠ 2 := by
    rw [splitChar_length]
    omega
  unfold verifyPaymentToken
  rcases hsp : splitChar '.' token.data with _ | ⟨a, _ | ⟨b, _ | ⟨c, rest⟩⟩⟩
  · rfl
  · rfl
  · exfalso
    rw [hsp] at hlen
    simp at hlen
  · rfl

theorem verifyToken_invalid_format_witness :
    ("abc" : String).data.count '.' ≠ 1 ∧
    verifyPaymentToken sampleHmac "s" 0 "abc" = ⟨none, some "INVALID_FORMAT"⟩ :=
  ⟨by decide, verifyToken_invalid_format sampleHmac "s" 0 "abc" (by decide)⟩

/-- C9: when the token field is absent (or not a string, or the empty string —
all JS-falsy), the route answers non-retryable `MISSING_TOKEN` even for a
transaction hash already recorded as used: the token-presence check runs
before the anti-replay branch, so the idempotent `ALREADY_VERIFIED` success
still requires presenting some token string. -/
theorem missing_token_precedes_replay (env : VerifyEnv) (store : ReplayStore)
    (th : String) (tok : Option String) (wallet : Option String)
    (hcfg : env.configValid = true)
    (hth : jsStartsWith th "0x" = true)
    (htok : tok = none ∨ tok = some "")
    (hused : isTxHashUsed store th = true) :
    POST env store ⟨some th, tok, wallet⟩ =
      (⟨false, some "MISSING_TOKEN", some false, none, none, 400⟩, store) := by
  rcases htok with rfl | rfl
  · unfold POST
    simp [hcfg, hth]
  · unfold POST
    simp [hcfg, hth]

theorem missing_token_precedes_replay_witness :
    isTxHashUsed ["0xab"] "0xab" = true ∧
    POST sampleEnv ["0xab"] ⟨some "0xab", none, some "0xw"⟩ =
      (⟨false, some "MISSING_TOKEN", some false, none, none, 400⟩, ["0xab"]) :=
  ⟨by decide,
    missing_token_precedes_replay sampleEnv ["0xab"] "0xab" none (some "0xw")
      rfl (by decide) (Or.inl rfl) (by decide)⟩

/-- C10: every outcome of the verify route with `paid:false` — every error
code, retryable or not, pending confirmations and internal errors included —
leaves the replay store unchanged; only the single fully successful path calls
`markTxHashAsUsed`. -/
theorem failed_verify_leaves_store (env : VerifyEnv) (store : ReplayStore)
    (req : VerifyRequest) (h : (POST env store req).1.paid = false) :
    (POST env store req).2 = store := by
  rcases POST_cases env store req with ⟨_, hst⟩ | ⟨th, _, _, _, hst⟩ | ⟨th, _, _, _, hp, _⟩
  · exact hst
  · exact hst
  · rw [hp] at h
    exact Bool.noConfusion h

theorem failed_verify_leaves_store_witness :
    (POST sampleEnvBad [] ⟨none, none, none⟩).1.paid = false ∧
    (POST sampleEnvBad [] ⟨none, none, none⟩).2 = [] :=
  ⟨rfl, failed_verify_leaves_store sampleEnvBad [] ⟨none, none, none⟩ rfl⟩

/-- C8 counterexample: the claim that an in-flight verify response arriving
after teardown is ignored is false — from a torn-down state with a fetch in
flight, the arriving `paid:true` response still changes the state and fires
the success callback (`confirmedCalls` rises from 0 to 1). -/
theorem gate_inflight_response_after_teardown_cex :
    (gateStep (gateStep ⟨true, true, true, "verifying", 0, 0⟩ .teardown)
        (.response true false "") ≠
      gateStep ⟨true, true, true, "verifying", 0, 0⟩ .teardown) ∧
    (gateStep ⟨true, true, true, "verifying", 0, 0⟩ .teardown).mounted = false ∧
    (gateStep (gateStep ⟨true, true, true, "verifying", 0, 0⟩ .teardown)
        (.response true false "")).confirmedCalls = 1 ∧
    (gateStep ⟨true, true, true, "verifying", 0, 0⟩ .teardown).confirmedCalls = 0 := by
  decide

/-- C8 (amended): teardown cancels the pending retry timer — afterwards no
timer is pending and a timer-fire event changes nothing — and if no verify
fetch is in flight at teardown, no event changes the state at all; an
in-flight response, however, is not ignored (see the counterexample). -/
theorem gate_teardown_cancels_timer (s : GateState) :
    (gateStep s .teardown).timerPending = false ∧
    gateStep (gateStep s .teardown) .timerFire = gateStep s .teardown ∧
    (s.inFlight = false →
      ∀ e, gateStep (gateStep s .teardown) e = gateStep s .teardown) := by
  obtain ⟨m, t, f, p, r, c⟩ := s
  refine ⟨rfl, rfl, fun hf e => ?_⟩
  cases hf
  cases e with
  | teardown => rfl
  | timerFire => rfl
  | response paid retryable code => rfl

theorem gate_teardown_cancels_timer_witness :
    (gateStep (⟨true, true, false, "verifying", 2, 0⟩ : GateState) .teardown).timerPending
        = false ∧
    gateStep (gateStep (⟨true, true, false, "verifying", 2, 0⟩ : GateState) .teardown)
        (.response true true "X")
      = gateStep (⟨true, true, false, "verifying", 2, 0⟩ : GateState) .teardown :=
  ⟨(gate_teardown_cancels_timer ⟨true, true, false, "verifying", 2, 0⟩).1,
   (gate_teardown_cancels_timer ⟨true, true, false, "verifying", 2, 0⟩).2.2 rfl
      (.response true true "X")⟩

end SnakePay
